import Mathlib

/-!
# L402 go-example: the retry client, the resolver, the issuer and the resource server

A shallow embedding of the Go packages `l402`, `gateway`, `wallet` and `cmd/server`.

Conventions of the embedding

* A Go `error` is a value of `GoError`; a Go result pair `(v, err)` with exactly one side set is
  an `Except GoError _`.
* Everything outside the function under study (network peers, the operator at the terminal, the
  clock) is a world state of an arbitrary type `σ`; an effectful call takes the world and returns
  the new one.  Each model also returns the list of effectful calls it made, in order, so that
  "how many times was the transport called" is a statement about that list.
* Logging (`slog`, `fmt.Printf`) has no influence on any result and is left out.
* `encoding/json` decoding of a body is a parameter; a value written through
  `json.NewEncoder(w).Encode(v)` is recorded as the value `v` itself.
-/

namespace L402

/-! ## Go errors -/

/-- Go error values.  `errors.New(msg)` and `fmt.Errorf` without `%w` build `new`;
`fmt.Errorf(pre ++ "%w", err)` builds `wrap pre err`. -/
inductive GoError where
  | new (msg : String)
  | wrap (pre : String) (inner : GoError)
  deriving DecidableEq, Repr

/-- The method `Error()` of an error value. -/
def GoError.Error : GoError → String
  | .new msg => msg
  | .wrap pre inner => pre ++ inner.Error

/-- The function `errors.Unwrap`. -/
def GoError.Unwrap : GoError → Option GoError
  | .new _ => none
  | .wrap _ inner => some inner

/-! ## l402/common.go -/

def L402_VERSION : String := "0.2.2"

/-- The string type `PaymentMethods`. -/
abbrev PaymentMethods := String

def Lightning : PaymentMethods := "lightning"
def Onchain : PaymentMethods := "onchain"
def CreditCard : PaymentMethods := "credit_card"
def FakePay : PaymentMethods := "fake-pay"

/-- The string type `OfferType`. -/
abbrev OfferType := String

def OneTime : OfferType := "one-time"
def TopUp : OfferType := "top-up"
def Subscription : OfferType := "subscription"

structure Offer where
  ID : String
  Title : String
  Description : String
  Type_ : OfferType
  Balance : Int
  Amount : Int
  Currency : String
  PaymentMethods : List PaymentMethods
  deriving DecidableEq, Repr

structure L402Response where
  Version : String
  PaymentRequestURL : String
  PaymentContextToken : String
  Offers : List Offer
  TermsURL : String
  deriving DecidableEq, Repr

structure PaymentRequestRequest where
  OfferID : String
  PaymentMethod : String
  PaymentContextToken : String
  Chain : String
  Asset : String
  deriving DecidableEq, Repr

structure PayReq where
  LightningInvoice : String
  Address : String
  Asset : String
  Chain : String
  CheckoutURL : String
  deriving DecidableEq, Repr

structure PaymentRequestResponse where
  Version : String
  ExpiresAt : String
  PaymentRequest : PayReq
  deriving DecidableEq, Repr

/-- The zero value `PayReq{}`. -/
def PayReq.zero : PayReq := ⟨"", "", "", "", ""⟩

/-- The zero value `PaymentRequestResponse{}`. -/
def PaymentRequestResponse.zero : PaymentRequestResponse := ⟨"", "", PayReq.zero⟩

/-! ## net/http values -/

/-- An `http.Header`: canonical field name to values. -/
structure Header where
  entries : List (String × List String)
  deriving DecidableEq, Repr

/-- Upper-case the first letter and every letter after a hyphen, lower-case the rest
(`textproto.CanonicalMIMEHeaderKey` on a name made of token characters). -/
def canonicalChars : Bool → List Char → List Char
  | _, [] => []
  | up, c :: cs => (if up then c.toUpper else c.toLower) :: canonicalChars (c == '-') cs

def CanonicalHeaderKey (key : String) : String := ⟨canonicalChars true key.data⟩

/-- The method `Header.Get`: first value stored under the canonical key, or `""`. -/
def Header.Get (h : Header) (key : String) : String :=
  match h.entries.lookup (CanonicalHeaderKey key) with
  | some (v :: _) => v
  | _ => ""

/-- The method `Header.Set`: replace whatever is stored under the canonical key. -/
def Header.Set (h : Header) (key value : String) : Header :=
  ⟨(CanonicalHeaderKey key, [value]) ::
    h.entries.filter (fun e => e.1 != CanonicalHeaderKey key)⟩

/-- An outgoing `*http.Request`. -/
structure Request where
  Method : String
  URL : String
  Header : Header
  Body : String
  deriving DecidableEq, Repr

/-- An `*http.Response` as far as the code reads it: the status code and the body's content. -/
structure Response where
  StatusCode : Nat
  Body : String
  deriving DecidableEq, Repr

def StatusOK : Nat := 200
def StatusBadRequest : Nat := 400
def StatusUnauthorized : Nat := 401
def StatusPaymentRequired : Nat := 402
def StatusInternalServerError : Nat := 500
def StatusBadGateway : Nat := 502

/-! ## l402/client.go -/

/-- The client: its `httpClient` (the method `Do` of the `*http.Client`) and its `wallet`
(the method `Pay` of the `Wallet` interface; `none` is a nil error). -/
structure HTTP402Client (σ : Type) where
  httpClient : Request → σ → Except GoError Response × σ
  wallet : L402Response → σ → Option GoError × σ

/-- What `Do` uses from outside the repository: decoding a body into an `L402Response`
(`json.NewDecoder(resp.Body).Decode(response)`) and reading the operator's answer
(`fmt.Scanln(&yn)`, giving the value of `yn` after the call). -/
structure Runtime (σ : Type) where
  decodeL402Response : String → Except GoError L402Response
  Scanln : σ → String × σ

/-- The effectful calls made by `Do`, with what each returned. -/
inductive Event where
  | transport (req : Request) (res : Except GoError Response)
  | pay (challenge : L402Response) (res : Option GoError)
  | scanln (yn : String)

/-- What a call of `Do` leaves behind: the returned pair, the world and the calls made. -/
structure DoOutcome (σ : Type) where
  result : Except GoError Response
  world : σ
  trace : List Event

/-- The method `HTTP402Client.Do` (client.go:30-70). -/
def HTTP402Client.Do {σ : Type} (rt : Runtime σ) (c : HTTP402Client σ) (req : Request) (w : σ) :
    DoOutcome σ :=
  match c.httpClient req w with
  | (.error err, w1) => ⟨.error err, w1, [.transport req (.error err)]⟩
  | (.ok resp, w1) =>
    if resp.StatusCode ≠ StatusPaymentRequired then
      ⟨.ok resp, w1, [.transport req (.ok resp)]⟩
    else
      match rt.decodeL402Response resp.Body with
      | .error err =>
        ⟨.error (.wrap "failed to parse L402 response: " err), w1, [.transport req (.ok resp)]⟩
      | .ok response =>
        match c.wallet response w1 with
        | (some err, w2) =>
          ⟨.error (.wrap "failed to process L402 payment: " err), w2,
            [.transport req (.ok resp), .pay response (some err)]⟩
        | (none, w2) =>
          match rt.Scanln w2 with
          | (yn, w3) =>
            if yn = "n" then
              ⟨.error (.new "the client did not pay"), w3,
                [.transport req (.ok resp), .pay response none, .scanln yn]⟩
            else
              match c.httpClient req w3 with
              | (res, w4) =>
                ⟨res, w4,
                  [.transport req (.ok resp), .pay response none, .scanln yn, .transport req res]⟩

/-- The requests handed to the transport, in order. -/
def transportCalls : List Event → List Request
  | [] => []
  | .transport req _ :: es => req :: transportCalls es
  | _ :: es => transportCalls es

/-- The challenges handed to the wallet, in order. -/
def walletCalls : List Event → List L402Response
  | [] => []
  | .pay challenge _ :: es => challenge :: walletCalls es
  | _ :: es => walletCalls es

/-! ## time values -/

/-- A `time.Time`: the instant (Unix seconds and nanoseconds within the second) and its
location, given as the zone offset in seconds east of UTC in effect at a Unix second. -/
structure Time where
  sec : Int
  nsec : Nat
  loc : Int → Int

/-- A `time.Duration`, in nanoseconds. -/
abbrev Duration := Int

def Second : Duration := 1000000000
def Minute : Duration := 60 * Second

/-- The method `Time.Add`. -/
def Time.Add (t : Time) (d : Duration) : Time :=
  let total : Int := t.sec * 1000000000 + (t.nsec : Int) + d
  ⟨total / 1000000000, (total % 1000000000).toNat, t.loc⟩

def digitChar (d : Nat) : Char := Char.ofNat (48 + d % 10)

def pad2 (n : Nat) : String := ⟨[digitChar (n / 10), digitChar n]⟩

def pad4 (n : Nat) : String :=
  if n < 10000 then ⟨[digitChar (n / 1000), digitChar (n / 100), digitChar (n / 10), digitChar n]⟩
  else toString n

/-- Year, month and day of the proleptic Gregorian calendar for a day count since 1970-01-01. -/
def civilFromDays (days : Int) : Int × Nat × Nat :=
  let z := days + 719468
  let era := z / 146097
  let doe := (z % 146097).toNat
  let yoe := (doe - doe / 1460 + doe / 36524 - doe / 146096) / 365
  let doy := doe - (365 * yoe + yoe / 4 - yoe / 100)
  let mp := (5 * doy + 2) / 153
  let d := doy - (153 * mp + 2) / 5 + 1
  let m := if mp < 10 then mp + 3 else mp - 9
  let y := (yoe : Int) + era * 400
  (if m ≤ 2 then y + 1 else y, m, d)

/-- The zone suffix of the layout element `Z07:00`. -/
def zoneSuffix (offset : Int) : String :=
  let zone := Int.tdiv offset 60
  if zone = 0 then "Z"
  else
    let a := zone.natAbs
    (if zone < 0 then "-" else "+") ++ pad2 (a / 60) ++ ":" ++ pad2 (a % 60)

/-- The call `t.Format(time.RFC3339)`, layout `2006-01-02T15:04:05Z07:00`. -/
def Time.FormatRFC3339 (t : Time) : String :=
  let offset := t.loc t.sec
  let abs := t.sec + offset
  let days := abs / 86400
  let secs := (abs % 86400).toNat
  let (y, m, d) := civilFromDays days
  (if y < 0 then "-" ++ pad4 y.natAbs else pad4 y.toNat) ++ "-" ++ pad2 m ++ "-" ++ pad2 d ++ "T"
    ++ pad2 (secs / 3600) ++ ":" ++ pad2 (secs / 60 % 60) ++ ":" ++ pad2 (secs % 60)
    ++ zoneSuffix offset

/-- The location `time.UTC`. -/
def UTC : Int → Int := fun _ => 0

/-! ## l402/server.go -/

/-- The function `NewL402Response` (server.go:10-20); `uuidNew` is `uuid.New().String()`,
which draws from the random source of the world. -/
def NewL402Response {σ : Type} (uuidNew : σ → String × σ) (url : String) (offers : List Offer)
    (w : σ) : L402Response × σ :=
  match uuidNew w with
  | (paymentContextToken, w1) =>
    (⟨L402_VERSION, url, paymentContextToken, offers, "https://example.com/terms"⟩, w1)

/-- The function `NewPayReqResponse` (server.go:22-37); `now` is the value of `time.Now()`. -/
def NewPayReqResponse (paymentRequest : PaymentRequestRequest) (now : Time) :
    Except GoError PaymentRequestResponse :=
  if paymentRequest.PaymentMethod ≠ FakePay then
    .error (.new "payment method not supported")
  else
    let payReq : PayReq :=
      { PayReq.zero with CheckoutURL := "http://localhost:8080/simulate-payment" }
    .ok ⟨L402_VERSION, (now.Add (Minute * 10)).FormatRFC3339, payReq⟩

/-! ## net/url values and the handler side of net/http -/

/-- A `url.Values`: key to values. -/
structure Values where
  entries : List (String × List String)
  deriving DecidableEq, Repr

/-- The method `Values.Get`: first value stored under the key, or `""`. -/
def Values.Get (v : Values) (key : String) : String :=
  match v.entries.lookup key with
  | some (x :: _) => x
  | _ => ""

/-- The method `Values.Set`: replace whatever is stored under the key. -/
def Values.Set (v : Values) (key value : String) : Values :=
  ⟨(key, [value]) :: v.entries.filter (fun e => e.1 != key)⟩

def hexDigit (n : Nat) : Char := "0123456789ABCDEF".data.getD (n % 16) '0'

/-- One character under `url.QueryEscape`: unreserved characters stay, a space becomes `+`,
every other byte of the UTF-8 encoding becomes `%XX`. -/
def escapeChar (c : Char) : List Char :=
  if c.isAlphanum || c == '-' || c == '_' || c == '.' || c == '~' then [c]
  else if c == ' ' then ['+']
  else (String.utf8EncodeChar c)  |>.flatMap
    (fun b => ['%', hexDigit (b.toNat / 16), hexDigit b.toNat])

/-- The function `url.QueryEscape`. -/
def QueryEscape (s : String) : String := ⟨s.data.flatMap escapeChar⟩

/-- The order of `sort.Strings` on keys: lexicographic, character by character. -/
def keyLE : List Char → List Char → Bool
  | [], _ => true
  | _ :: _, [] => false
  | a :: as, b :: bs => a.toNat < b.toNat || (a.toNat == b.toNat && keyLE as bs)

/-- The method `Values.Encode`: `key=value` pairs joined by `&`, sorted by key. -/
def Values.Encode (v : Values) : String :=
  let sorted := v.entries.insertionSort (fun a b => keyLE a.1.data b.1.data = true)
  let pairs := sorted.flatMap
    (fun e => e.2.map (fun x => QueryEscape e.1 ++ "=" ++ QueryEscape x))
  "&".intercalate pairs

/-- A `url.URL` as the gateway builds it. -/
structure URL where
  Scheme : String
  Host : String
  Path : String
  RawQuery : String
  deriving DecidableEq, Repr

/-- The method `URL.String` for a URL with scheme, host and a path that needs no escaping. -/
def URL.String (u : URL) : String :=
  u.Scheme ++ "://" ++ u.Host ++ u.Path ++ (if u.RawQuery = "" then "" else "?" ++ u.RawQuery)

/-- The `*http.Request` a handler receives, as far as the handlers read it: the header, the
parsed query `r.URL.Query()` and the body's content. -/
structure ServerRequest where
  Header : Header
  Query : Values
  Body : String
  deriving DecidableEq, Repr

/-- What was written to the body of a reply: raw text, or a value passed to
`json.NewEncoder(w).Encode`. -/
inductive Written (α : Type) where
  | text (s : String)
  | json (v : α)
  deriving DecidableEq, Repr

/-- What a handler did with its `http.ResponseWriter`. -/
structure Reply (α : Type) where
  Code : Nat
  ContentType : String
  Body : Written α
  deriving DecidableEq, Repr

/-- The function `http.Error`. -/
def httpError {α : Type} (error : String) (code : Nat) : Reply α :=
  ⟨code, "text/plain; charset=utf-8", .text (error ++ "\n")⟩

/-- The function `http.NewRequest` with a nil body; the method and URL the gateway passes are
constants that always validate. -/
def NewRequest (method url : String) : Except GoError Request :=
  .ok ⟨method, url, ⟨[]⟩, ""⟩

/-- The function `http.Post`'s request. -/
def postRequest (url contentType body : String) : Request :=
  ⟨"POST", url, (Header.mk []).Set "Content-Type" contentType, body⟩

/-! ## gateway/gateway.go -/

namespace Gateway

/-- The method `Gateway.handlePaymentRequest` (gateway.go:40-95); `decode` is
`json.NewDecoder(r.Body).Decode(&req)`. -/
def handlePaymentRequest (decode : String → Except GoError PaymentRequestRequest)
    (r : ServerRequest) : Reply PaymentRequestResponse :=
  match decode r.Body with
  | .error _ => httpError "invalid request body" StatusBadRequest
  | .ok req =>
    if req.PaymentMethod ≠ FakePay then
      httpError "only fake payments are supported in demo" StatusBadRequest
    else
      let checkoutURL : URL := ⟨"http", "localhost:8081", "/checkout", ""⟩
      let q : Values := ⟨[]⟩
      let q := q.Set "payment_context_token" req.PaymentContextToken
      let q := q.Set "offer_id" req.OfferID
      let checkoutURL := { checkoutURL with RawQuery := q.Encode }
      let resp : PaymentRequestResponse :=
        ⟨L402_VERSION, "2025-12-31T23:59:59Z",
          { PayReq.zero with CheckoutURL := checkoutURL.String }⟩
      ⟨StatusOK, "application/json", .json resp⟩

structure ChargeRequest where
  Offers : List Offer
  deriving DecidableEq, Repr

/-- The method `Gateway.handleCharge` (gateway.go:101-140); `decode` is
`json.NewDecoder(r.Body).Decode(&req)`. -/
def handleCharge (decode : String → Except GoError ChargeRequest) (r : ServerRequest) :
    Reply L402Response :=
  match decode r.Body with
  | .error _ => httpError "invalid request body" StatusBadRequest
  | .ok req =>
    if req.Offers.length = 0 then
      httpError "no offers provided" StatusBadRequest
    else
      let l402Response : L402Response :=
        ⟨L402_VERSION, "http://localhost:8081/payment-request", "demo-token-123", req.Offers, ""⟩
      ⟨StatusOK, "application/json", .json l402Response⟩

/-- What a call of `handleCheckout` leaves behind: the reply, the world, and the requests sent
to the resource server. -/
structure CheckoutOutcome (σ : Type) where
  reply : Reply Unit
  world : σ
  sent : List Request

def successPage (offerID : String) : String :=
  "\n\t\t<html>\n\t\t\t<body style=\"font-family: Arial, sans-serif; max-width: 600px; margin: 40px auto; text-align: center;\">\n\t\t\t\t<h1 style=\"color: #4CAF50;\">Payment Successful!</h1>\n\t\t\t\t<p>Your payment for offer "
    ++ offerID ++
  " has been processed.</p>\n\t\t\t\t<p>You can now return to the application and access your content.</p>\n\t\t\t</body>\n\t\t</html>\n\t"

/-- The method `Gateway.handleCheckout` (gateway.go:142-214); `httpDo` is
`http.DefaultClient.Do`. -/
def handleCheckout {σ : Type} (httpDo : Request → σ → Except GoError Response × σ)
    (r : ServerRequest) (w : σ) : CheckoutOutcome σ :=
  let paymentContext := r.Query.Get "payment_context_token"
  let offerID := r.Query.Get "offer_id"
  if paymentContext = "" ∨ offerID = "" then
    ⟨httpError "missing payment context or offer ID" StatusBadRequest, w, []⟩
  else
    match NewRequest "POST" "http://localhost:8080/payment-success" with
    | .error _ => ⟨httpError "internal server error" StatusInternalServerError, w, []⟩
    | .ok backendReq =>
      let backendReq :=
        { backendReq with Header := backendReq.Header.Set "X-Payment-Context" paymentContext }
      let backendReq :=
        { backendReq with Header := backendReq.Header.Set "X-Offer-ID" offerID }
      match httpDo backendReq w with
      | (.error _, w1) =>
        ⟨httpError "failed to notify backend" StatusInternalServerError, w1, [backendReq]⟩
      | (.ok resp, w1) =>
        if resp.StatusCode ≠ StatusOK then
          ⟨httpError "backend failed to process payment" StatusInternalServerError, w1,
            [backendReq]⟩
        else
          ⟨⟨StatusOK, "text/html", .text (successPage offerID)⟩, w1, [backendReq]⟩

end Gateway

/-! ## cmd/server/main.go -/

/-- The function `strings.HasPrefix`. -/
def HasPrefix (s pre : String) : Bool := pre.data.isPrefixOf s.data

/-- The function `strings.TrimPrefix`. -/
def TrimPrefix (s pre : String) : String :=
  if HasPrefix s pre then ⟨s.data.drop pre.data.length⟩ else s

def offers : List Offer :=
  [ { ID := "offer_0001", Title := "Pro",
      Description := "10 credits for all the datasets in the platform",
      Type_ := TopUp, Balance := 0, Amount := 10, Currency := "USD",
      PaymentMethods := [Lightning, FakePay] },
    { ID := "offer_0002", Title := "Dataset purchase",
      Description := "Unlimited access to a specific dataset",
      Type_ := OneTime, Balance := 0, Amount := 100, Currency := "USD",
      PaymentMethods := [Lightning, Onchain, FakePay] },
    { ID := "offer_0003", Title := "Unlimited",
      Description := "Unlimited access to all the datasets in the platform",
      Type_ := Subscription, Balance := 0, Amount := 500, Currency := "USD",
      PaymentMethods := [Lightning, Onchain, CreditCard, FakePay] } ]

def authToken : String := "01badad5-f2f0-43cf-be44-4f8e1c4d8641"

/-- The mutable part of the `Server` struct. -/
structure Server where
  hasPaid : Bool
  deriving DecidableEq, Repr

/-- The function `NewServer`. -/
def NewServer : Server := ⟨false⟩

/-- The body type of the resource server's replies: the JSON object of the granted answer. -/
abbrev Granted := List (String × String)

/-- The method `Server.handlePaymentSuccess` (main.go:73-101). -/
def Server.handlePaymentSuccess (s : Server) (r : ServerRequest) : Server × Reply Granted :=
  let paymentContext := r.Header.Get "X-Payment-Context"
  let offerID := r.Header.Get "X-Offer-ID"
  if paymentContext = "" ∨ offerID = "" then
    (s, httpError "missing payment context or offer ID" StatusBadRequest)
  else
    ({ s with hasPaid := true }, ⟨StatusOK, "", .text ""⟩)

/-- What the resource handler uses from outside: `json.Marshal` of the charge request and the
transport behind `http.Post`. -/
structure ServerEnv (σ : Type) where
  marshalCharge : List Offer → Except GoError String
  httpDo : Request → σ → Except GoError Response × σ

/-- What a call of `handleGetPrivateResource` leaves behind: the server, the reply, the world
and the requests sent to the gateway. -/
structure ResourceOutcome (σ : Type) where
  server : Server
  reply : Reply Granted
  world : σ
  sent : List Request

/-- The method `Server.handleGetPrivateResource` (main.go:103-189). -/
def Server.handleGetPrivateResource {σ : Type} (env : ServerEnv σ) (s : Server)
    (r : ServerRequest) (w : σ) : ResourceOutcome σ :=
  let authHeader := r.Header.Get "Authorization"
  if !HasPrefix authHeader "Bearer " then
    ⟨s, httpError "Unauthorized: missing bearer token" StatusUnauthorized, w, []⟩
  else
    let token := TrimPrefix authHeader "Bearer "
    if token ≠ authToken then
      ⟨s, httpError "Unauthorized: invalid token" StatusUnauthorized, w, []⟩
    else if !s.hasPaid then
      match env.marshalCharge offers with
      | .error _ => ⟨s, httpError "internal server error" StatusInternalServerError, w, []⟩
      | .ok body =>
        let chargeReq := postRequest "http://localhost:8081/charge" "application/json" body
        match env.httpDo chargeReq w with
        | (.error _, w1) => ⟨s, httpError "gateway error" StatusBadGateway, w1, [chargeReq]⟩
        | (.ok resp, w1) =>
          ⟨s, ⟨StatusPaymentRequired, "application/json", .text resp.Body⟩, w1, [chargeReq]⟩
    else
      ⟨s, ⟨StatusOK, "application/json",
        .json [("message", "Access granted to dataset 123"), ("status", "success")]⟩, w, []⟩

/-- A request routed to one of the two handlers of the resource server. -/
inductive ServerCall where
  | paymentSuccess (r : ServerRequest)
  | getPrivateResource (r : ServerRequest)

/-- One handled request: the call, the server before and after, and the reply. -/
structure Handled where
  call : ServerCall
  before : Server
  after : Server
  reply : Reply Granted

/-- One step of the resource server. -/
def Server.step {σ : Type} (env : ServerEnv σ) (s : Server) (w : σ) (c : ServerCall) :
    Handled × σ :=
  match c with
  | .paymentSuccess r =>
    let out := s.handlePaymentSuccess r
    (⟨c, s, out.1, out.2⟩, w)
  | .getPrivateResource r =>
    let out := s.handleGetPrivateResource env r w
    (⟨c, s, out.server, out.reply⟩, out.world)

/-- The resource server handling a sequence of requests one after the other. -/
def Server.run {σ : Type} (env : ServerEnv σ) : Server → σ → List ServerCall → List Handled
  | _, _, [] => []
  | s, w, c :: cs =>
    let h := s.step env w c
    h.1 :: Server.run env h.1.after h.2 cs

/-! ## wallet/mock.go -/

/-- The method `MockWallet.Pay` (mock.go:18-28): it lists the offers on standard output and
returns an error, always. -/
def MockWallet.Pay (_response : L402Response) : GoError :=
  .new "mock wallet cannot process payments, run client with --fake to simulate a payment"

/-! ## A scripted world for the closed statements -/

/-- A world whose transport answers from a script and whose operator types from a script. -/
structure Scripted where
  responses : List (Except GoError Response)
  stdin : List String

/-- A transport that answers with the next scripted response. -/
def Scripted.httpDo (_req : Request) (w : Scripted) : Except GoError Response × Scripted :=
  match w.responses with
  | [] => (.error (.new "connection refused"), w)
  | r :: rs => (r, { w with responses := rs })

/-- A terminal that yields the next scripted line. -/
def Scripted.Scanln (w : Scripted) : String × Scripted :=
  match w.stdin with
  | [] => ("", w)
  | l :: ls => (l, { w with stdin := ls })

/-- The challenge the gateway answers the resource server's offers with. -/
def scriptedChallenge : L402Response :=
  ⟨L402_VERSION, "http://localhost:8081/payment-request", "demo-token-123", offers, ""⟩

/-- A decoder that knows one body. -/
def scriptedDecode (body : String) : Except GoError L402Response :=
  if body = "challenge" then .ok scriptedChallenge
  else .error (.new "invalid character")

def scriptedRuntime : Runtime Scripted := ⟨scriptedDecode, Scripted.Scanln⟩

/-- A client whose wallet always succeeds. -/
def payingClient : HTTP402Client Scripted := ⟨Scripted.httpDo, fun _ w => (none, w)⟩

/-- A client with the mock wallet, which always fails. -/
def refusingClient : HTTP402Client Scripted :=
  ⟨Scripted.httpDo, fun response w => (some (MockWallet.Pay response), w)⟩

/-- The request of cmd/client/main.go. -/
def resourceRequest : Request :=
  ⟨"GET", "http://localhost:8080/private-resource",
    (Header.mk []).Set "Authorization" ("Bearer " ++ authToken), ""⟩

/-- A decoder of payment-request bodies that knows three bodies: the request the fake wallet
sends for `offer_0001`, a request for the same offer by `lightning`, and a `fake-pay` request
for an offer that lists only `lightning`. -/
def scriptedPayReqDecode (body : String) : Except GoError PaymentRequestRequest :=
  if body = "fake-pay offer_0001" then .ok ⟨"offer_0001", FakePay, "demo-token-123", "", ""⟩
  else if body = "lightning offer_fake_only" then
    .ok ⟨"offer_fake_only", Lightning, "demo-token-123", "", ""⟩
  else if body = "fake-pay offer_lightning_only" then
    .ok ⟨"offer_lightning_only", FakePay, "demo-token-123", "", ""⟩
  else .error (.new "invalid character")

/-- The offer of the specification's scenario: it lists only `fake-pay`. -/
def fakeOnlyOffer : Offer :=
  { ID := "offer_fake_only", Title := "Pro", Description := "", Type_ := TopUp, Balance := 0,
    Amount := 10, Currency := "USD", PaymentMethods := [FakePay] }

/-- An offer that lists only `lightning`. -/
def lightningOnlyOffer : Offer :=
  { ID := "offer_lightning_only", Title := "Pro", Description := "", Type_ := TopUp,
    Balance := 0, Amount := 10, Currency := "USD", PaymentMethods := [Lightning] }

/-- A decoder of charge bodies that knows the body the resource server sends and a body with
a single other offer. -/
def scriptedChargeDecode (body : String) : Except GoError Gateway.ChargeRequest :=
  if body = "offers" then .ok ⟨offers⟩
  else if body = "one offer" then .ok ⟨[fakeOnlyOffer]⟩
  else .error (.new "invalid character")

/-- The instant 2026-11-04T12:00:00Z. -/
def sampleNow : Time := ⟨1793793600, 0, UTC⟩

/-- Whether a handled request was a completion notice that the server accepted (answered 200). -/
def Handled.acceptedNotice (h : Handled) : Bool :=
  match h.call with
  | .paymentSuccess _ => h.reply.Code == StatusOK
  | .getPrivateResource _ => false

/-- Whether a handled request was a resource check carrying the configured bearer token. -/
def Handled.authenticatedCheck (h : Handled) : Bool :=
  match h.call with
  | .paymentSuccess _ => false
  | .getPrivateResource r => r.Header.Get "Authorization" == "Bearer " ++ authToken

/-- The resource server's surroundings over the scripted world. -/
def scriptedServerEnv : ServerEnv Scripted := ⟨fun _ => .ok "offers", Scripted.httpDo⟩

/-- A resource check with the configured bearer token. -/
def authenticatedRequest : ServerRequest :=
  ⟨(Header.mk []).Set "Authorization" ("Bearer " ++ authToken), ⟨[]⟩, ""⟩

/-- A complete completion notice. -/
def completeNotice : ServerRequest :=
  ⟨((Header.mk []).Set "X-Payment-Context" "demo-token-123").Set "X-Offer-ID" "offer_0001",
    ⟨[]⟩, ""⟩

/-! ## wallet/fake.go -/

/-- The configured part of the `FakeWallet` struct. -/
structure FakeWallet where
  offerID : String
  deriving DecidableEq, Repr

/-- The function `NewFakeWallet`. -/
def NewFakeWallet (offerID : String) : FakeWallet := ⟨offerID⟩

/-- What `FakeWallet.Pay` uses from outside: `json.Marshal` of the payment request, the
transport behind `http.Post`, and decoding the answer
(`json.NewDecoder(resp.Body).Decode(&payResp)`). -/
structure WalletEnv (σ : Type) where
  marshalPayReq : PaymentRequestRequest → Except GoError String
  httpDo : Request → σ → Except GoError Response × σ
  decodePayResp : String → Except GoError PaymentRequestResponse

/-- The loop of `FakeWallet.Pay` (fake.go:35-41): the value of `offer` after it, the first
offer of the list whose id is the wallet's, or nil. -/
def FakeWallet.selectOffer (fw : FakeWallet) : List Offer → Option Offer
  | [] => none
  | o :: os => if o.ID = fw.offerID then some o else fw.selectOffer os

/-- What a call of `FakeWallet.Pay` leaves behind: the returned error (`none` is nil), the
world, the offer the loop selected, the payment requests handed to `http.Post` and the HTTP
requests that carried them. -/
structure PayOutcome (σ : Type) where
  result : Option GoError
  world : σ
  selected : Option Offer
  submitted : List PaymentRequestRequest
  sent : List Request

/-- The method `FakeWallet.Pay` (fake.go:34-91). -/
def FakeWallet.Pay {σ : Type} (env : WalletEnv σ) (fw : FakeWallet) (response : L402Response)
    (w : σ) : PayOutcome σ :=
  match fw.selectOffer response.Offers with
  | none => ⟨some (.new ("offer " ++ fw.offerID ++ " not found")), w, none, [], []⟩
  | some offer =>
    let payReq : PaymentRequestRequest :=
      ⟨offer.ID, FakePay, response.PaymentContextToken, "", ""⟩
    match env.marshalPayReq payReq with
    | .error err =>
      ⟨some (.wrap "failed to marshal payment request: " err), w, some offer, [], []⟩
    | .ok body =>
      let post := postRequest response.PaymentRequestURL "application/json" body
      match env.httpDo post w with
      | (.error err, w1) =>
        ⟨some (.wrap "failed to make payment request: " err), w1, some offer, [payReq], [post]⟩
      | (.ok resp, w1) =>
        if resp.StatusCode ≠ StatusOK then
          ⟨some (.new ("payment request failed with status " ++ toString resp.StatusCode
              ++ ": " ++ resp.Body)), w1, some offer, [payReq], [post]⟩
        else
          match env.decodePayResp resp.Body with
          | .error err =>
            ⟨some (.wrap "failed to decode payment response: " err), w1, some offer, [payReq],
              [post]⟩
          | .ok _ => ⟨none, w1, some offer, [payReq], [post]⟩

/-- A marshaller whose output the scripted decoder of payment requests reads back. -/
def scriptedMarshalPayReq (p : PaymentRequestRequest) : Except GoError String :=
  .ok (p.PaymentMethod ++ " " ++ p.OfferID)

/-- A decoder of payment-request answers that knows one body. -/
def scriptedPayRespDecode (body : String) : Except GoError PaymentRequestResponse :=
  if body = "instructions" then
    .ok ⟨L402_VERSION, "2025-12-31T23:59:59Z", ⟨"", "", "", "",
      "http://localhost:8081/checkout?offer_id=offer_0001&payment_context_token=demo-token-123"⟩⟩
  else .error (.new "invalid character")

/-- The fake wallet's surroundings over the scripted world. -/
def scriptedWalletEnv : WalletEnv Scripted :=
  ⟨scriptedMarshalPayReq, Scripted.httpDo, scriptedPayRespDecode⟩

/-- A challenge whose only offer lists only `lightning`. -/
def lightningOnlyChallenge : L402Response :=
  ⟨L402_VERSION, "http://localhost:8081/payment-request", "demo-token-123",
    [lightningOnlyOffer], ""⟩

/-- The first of two offers that share the id `offer_twin`. -/
def firstTwin : Offer :=
  { ID := "offer_twin", Title := "First", Description := "", Type_ := OneTime, Balance := 0,
    Amount := 10, Currency := "USD", PaymentMethods := [FakePay] }

/-- The second of two offers that share the id `offer_twin`. -/
def secondTwin : Offer :=
  { ID := "offer_twin", Title := "Second", Description := "", Type_ := OneTime, Balance := 0,
    Amount := 999, Currency := "EUR", PaymentMethods := [FakePay] }

/-- A challenge in which two offers share an id, after an offer with another id. -/
def twinChallenge : L402Response :=
  ⟨L402_VERSION, "http://localhost:8081/payment-request", "demo-token-123",
    [fakeOnlyOffer, firstTwin, secondTwin], ""⟩

/-- A challenge without offers. -/
def emptyChallenge : L402Response :=
  ⟨L402_VERSION, "http://localhost:8081/payment-request", "demo-token-123", [], ""⟩

end L402

/-! # Theorems -/

namespace L402

/-! ## The retry client -/

/-- Whatever the wallet and the operator do, `Do` hands the transport the request it was given,
at most twice. -/
theorem do_transport_calls_bounded {σ : Type} (rt : Runtime σ) (c : HTTP402Client σ)
    (req : Request) (w : σ) :
    (transportCalls (c.Do rt req w).trace).length ≤ 2 ∧
      ∀ r ∈ transportCalls (c.Do rt req w).trace, r = req := by
  unfold HTTP402Client.Do
  split
  · simp [transportCalls]
  · split
    · simp [transportCalls]
    · split
      · simp [transportCalls]
      · split
        · simp [transportCalls]
        · split
          split
          · simp [transportCalls]
          · split
            simp [transportCalls]

/-- C1, as stated, fails: with a wallet that always succeeds and a first response that is a 402
with a parseable challenge, an operator answering `n` at the prompt makes `Do` return the error
`the client did not pay` after a single transport call; no retry is made and no retry response
is returned. -/
theorem do_paying_wallet_operator_declines :
    (∀ ch w0, (payingClient.wallet ch w0).1 = none) ∧
    (payingClient.httpClient resourceRequest ⟨[.ok ⟨402, "challenge"⟩, .ok ⟨200, "data"⟩], ["n"]⟩).1
      = .ok ⟨402, "challenge"⟩ ∧
    scriptedRuntime.decodeL402Response "challenge" = .ok scriptedChallenge ∧
    (payingClient.Do scriptedRuntime resourceRequest
        ⟨[.ok ⟨402, "challenge"⟩, .ok ⟨200, "data"⟩], ["n"]⟩).result
      = .error (.new "the client did not pay") ∧
    transportCalls (payingClient.Do scriptedRuntime resourceRequest
        ⟨[.ok ⟨402, "challenge"⟩, .ok ⟨200, "data"⟩], ["n"]⟩).trace
      = [resourceRequest] := by
  refine ⟨fun _ _ => rfl, rfl, rfl, rfl, rfl⟩

/-- C1 (amended): with a wallet whose `Pay` always succeeds, `Do` performs at most two transport
calls, each of the request it was given; when the first response is a 402 with a parseable
challenge the wallet is invoked exactly once, and then, if the operator's answer at the prompt is
not `n`, `Do` returns the result of the single retry as it is and the calls made are exactly
original, pay, prompt, retry; if the answer is `n`, `Do` makes no retry and returns the error
`the client did not pay`. -/
theorem do_paying_wallet_retries_once {σ : Type} (rt : Runtime σ) (c : HTTP402Client σ)
    (req : Request) (w : σ) (hpay : ∀ ch w0, (c.wallet ch w0).1 = none) :
    ((transportCalls (c.Do rt req w).trace).length ≤ 2 ∧
      ∀ r ∈ transportCalls (c.Do rt req w).trace, r = req) ∧
    ∀ resp w1 ch, c.httpClient req w = (.ok resp, w1) →
      resp.StatusCode = StatusPaymentRequired →
      rt.decodeL402Response resp.Body = .ok ch →
      walletCalls (c.Do rt req w).trace = [ch] ∧
      ((rt.Scanln (c.wallet ch w1).2).1 ≠ "n" →
        (c.Do rt req w).result = (c.httpClient req (rt.Scanln (c.wallet ch w1).2).2).1 ∧
        (c.Do rt req w).trace =
          [.transport req (.ok resp), .pay ch none, .scanln (rt.Scanln (c.wallet ch w1).2).1,
            .transport req (c.httpClient req (rt.Scanln (c.wallet ch w1).2).2).1]) ∧
      ((rt.Scanln (c.wallet ch w1).2).1 = "n" →
        (c.Do rt req w).result = .error (.new "the client did not pay") ∧
        transportCalls (c.Do rt req w).trace = [req]) := by
  refine ⟨do_transport_calls_bounded rt c req w, ?_⟩
  intro resp w1 ch hfirst hstatus hdecode
  have hw := hpay ch w1
  rcases hwallet : c.wallet ch w1 with ⟨e, w2⟩
  rw [hwallet] at hw
  simp only at hw
  subst hw
  rcases hscan : rt.Scanln w2 with ⟨yn, w3⟩
  rcases hretry : c.httpClient req w3 with ⟨res, w4⟩
  by_cases hyn : yn = "n"
  · simp [HTTP402Client.Do, hfirst, hstatus, hdecode, hwallet, hscan, hyn, transportCalls,
      walletCalls]
  · simp [HTTP402Client.Do, hfirst, hstatus, hdecode, hwallet, hscan, hretry, hyn,
      transportCalls, walletCalls]

/-- C1 (amended), at a concrete input: the retry's response is itself a 402 and is returned as
it is, the wallet having been invoked once. -/
theorem do_paying_wallet_retries_once_witness :
    (∀ ch w0, (payingClient.wallet ch w0).1 = none) ∧
    (payingClient.Do scriptedRuntime resourceRequest
        ⟨[.ok ⟨402, "challenge"⟩, .ok ⟨402, "challenge"⟩], ["y"]⟩).result
      = .ok ⟨402, "challenge"⟩ ∧
    walletCalls (payingClient.Do scriptedRuntime resourceRequest
        ⟨[.ok ⟨402, "challenge"⟩, .ok ⟨402, "challenge"⟩], ["y"]⟩).trace
      = [scriptedChallenge] :=
  have h := (do_paying_wallet_retries_once scriptedRuntime payingClient resourceRequest
    ⟨[.ok ⟨402, "challenge"⟩, .ok ⟨402, "challenge"⟩], ["y"]⟩ (fun _ _ => rfl)).2
    ⟨402, "challenge"⟩ ⟨[.ok ⟨402, "challenge"⟩], ["y"]⟩ scriptedChallenge rfl rfl rfl
  ⟨fun _ _ => rfl, (h.2.1 (by decide)).1, h.1⟩

/-- C2: with a wallet whose `Pay` always fails, a first response that is a 402 with a parseable
challenge makes `Do` perform exactly one transport call and return no response but an error
that wraps the wallet's error. -/
theorem do_failing_wallet_single_call {σ : Type} (rt : Runtime σ) (c : HTTP402Client σ)
    (req : Request) (w w1 : σ) (resp : Response) (ch : L402Response)
    (hfail : ∀ ch0 w0, (c.wallet ch0 w0).1 ≠ none)
    (hfirst : c.httpClient req w = (.ok resp, w1))
    (hstatus : resp.StatusCode = StatusPaymentRequired)
    (hdecode : rt.decodeL402Response resp.Body = .ok ch) :
    ∃ werr, (c.wallet ch w1).1 = some werr ∧
      (c.Do rt req w).result = .error (.wrap "failed to process L402 payment: " werr) ∧
      (∀ e, (c.Do rt req w).result = .error e → e.Unwrap = some werr) ∧
      transportCalls (c.Do rt req w).trace = [req] ∧
      (c.Do rt req w).trace = [.transport req (.ok resp), .pay ch (some werr)] := by
  have hw := hfail ch w1
  rcases hwallet : c.wallet ch w1 with ⟨e, w2⟩
  rw [hwallet] at hw
  cases e with
  | none => exact absurd rfl hw
  | some werr =>
    refine ⟨werr, rfl, ?_⟩
    simp [HTTP402Client.Do, hfirst, hstatus, hdecode, hwallet, transportCalls, GoError.Unwrap]

/-- C2, at a concrete input: the mock wallet's error comes back wrapped after one call. -/
theorem do_failing_wallet_single_call_witness :
    ∃ werr, (refusingClient.wallet scriptedChallenge ⟨[.ok ⟨200, "data"⟩], []⟩).1 = some werr ∧
      (refusingClient.Do scriptedRuntime resourceRequest
          ⟨[.ok ⟨402, "challenge"⟩, .ok ⟨200, "data"⟩], []⟩).result
        = .error (.wrap "failed to process L402 payment: " werr) ∧
      (∀ e, (refusingClient.Do scriptedRuntime resourceRequest
          ⟨[.ok ⟨402, "challenge"⟩, .ok ⟨200, "data"⟩], []⟩).result = .error e →
        e.Unwrap = some werr) ∧
      transportCalls (refusingClient.Do scriptedRuntime resourceRequest
          ⟨[.ok ⟨402, "challenge"⟩, .ok ⟨200, "data"⟩], []⟩).trace = [resourceRequest] ∧
      (refusingClient.Do scriptedRuntime resourceRequest
          ⟨[.ok ⟨402, "challenge"⟩, .ok ⟨200, "data"⟩], []⟩).trace
        = [.transport resourceRequest (.ok ⟨402, "challenge"⟩),
            .pay scriptedChallenge (some werr)] :=
  do_failing_wallet_single_call scriptedRuntime refusingClient resourceRequest
    ⟨[.ok ⟨402, "challenge"⟩, .ok ⟨200, "data"⟩], []⟩ ⟨[.ok ⟨200, "data"⟩], []⟩
    ⟨402, "challenge"⟩ scriptedChallenge (fun _ _ => by simp [refusingClient]) rfl rfl rfl

/-- C3: a first response whose status is not 402 is returned as it is with no error, after
exactly one transport call and without the wallet being invoked. -/
theorem do_non_challenge_returned {σ : Type} (rt : Runtime σ) (c : HTTP402Client σ)
    (req : Request) (w w1 : σ) (resp : Response)
    (hfirst : c.httpClient req w = (.ok resp, w1))
    (hstatus : resp.StatusCode ≠ StatusPaymentRequired) :
    (c.Do rt req w).result = .ok resp ∧
    (c.Do rt req w).world = w1 ∧
    transportCalls (c.Do rt req w).trace = [req] ∧
    walletCalls (c.Do rt req w).trace = [] ∧
    (c.Do rt req w).trace = [.transport req (.ok resp)] := by
  simp [HTTP402Client.Do, hfirst, hstatus, transportCalls, walletCalls]

/-- C3, at a concrete input: a 200 comes back untouched. -/
theorem do_non_challenge_returned_witness :
    (payingClient.Do scriptedRuntime resourceRequest ⟨[.ok ⟨200, "data"⟩], []⟩).result
        = .ok ⟨200, "data"⟩ ∧
    transportCalls (payingClient.Do scriptedRuntime resourceRequest
        ⟨[.ok ⟨200, "data"⟩], []⟩).trace = [resourceRequest] ∧
    walletCalls (payingClient.Do scriptedRuntime resourceRequest
        ⟨[.ok ⟨200, "data"⟩], []⟩).trace = [] :=
  have h := do_non_challenge_returned scriptedRuntime payingClient resourceRequest
    ⟨[.ok ⟨200, "data"⟩], []⟩ ⟨[], []⟩ ⟨200, "data"⟩ rfl (by decide)
  ⟨h.1, h.2.2.1, h.2.2.2.1⟩

/-- C10: a first response with status 402 whose body does not decode as a challenge makes `Do`
return no response but an error wrapping the decoding error, after exactly one transport call
and without the wallet being invoked. -/
theorem do_malformed_challenge_fails {σ : Type} (rt : Runtime σ) (c : HTTP402Client σ)
    (req : Request) (w w1 : σ) (resp : Response) (derr : GoError)
    (hfirst : c.httpClient req w = (.ok resp, w1))
    (hstatus : resp.StatusCode = StatusPaymentRequired)
    (hdecode : rt.decodeL402Response resp.Body = .error derr) :
    (c.Do rt req w).result = .error (.wrap "failed to parse L402 response: " derr) ∧
    transportCalls (c.Do rt req w).trace = [req] ∧
    walletCalls (c.Do rt req w).trace = [] ∧
    (c.Do rt req w).trace = [.transport req (.ok resp)] := by
  simp [HTTP402Client.Do, hfirst, hstatus, hdecode, transportCalls, walletCalls]

/-- C10, at a concrete input: a 402 with an HTML body, and a wallet that would have paid. -/
theorem do_malformed_challenge_fails_witness :
    (payingClient.Do scriptedRuntime resourceRequest
        ⟨[.ok ⟨402, "<html>"⟩, .ok ⟨200, "data"⟩], []⟩).result
      = .error (.wrap "failed to parse L402 response: " (.new "invalid character")) ∧
    transportCalls (payingClient.Do scriptedRuntime resourceRequest
        ⟨[.ok ⟨402, "<html>"⟩, .ok ⟨200, "data"⟩], []⟩).trace = [resourceRequest] ∧
    walletCalls (payingClient.Do scriptedRuntime resourceRequest
        ⟨[.ok ⟨402, "<html>"⟩, .ok ⟨200, "data"⟩], []⟩).trace = [] :=
  have h := do_malformed_challenge_fails scriptedRuntime payingClient resourceRequest
    ⟨[.ok ⟨402, "<html>"⟩, .ok ⟨200, "data"⟩], []⟩ ⟨[.ok ⟨200, "data"⟩], []⟩
    ⟨402, "<html>"⟩ (.new "invalid character") rfl rfl rfl
  ⟨h.1, h.2.1, h.2.2.1⟩

/-! ## The resolver -/

/-- C4, as stated, fails: a request for an offer that lists only `lightning`, made with the
method `fake-pay`, is resolved by both `NewPayReqResponse` and the gateway's
`handlePaymentRequest`, which return payment instructions. -/
theorem resolver_accepts_unlisted_fake_pay :
    FakePay ∉ lightningOnlyOffer.PaymentMethods ∧
    scriptedPayReqDecode "fake-pay offer_lightning_only"
      = .ok ⟨lightningOnlyOffer.ID, FakePay, "demo-token-123", "", ""⟩ ∧
    NewPayReqResponse ⟨lightningOnlyOffer.ID, FakePay, "demo-token-123", "", ""⟩ sampleNow
      = .ok ⟨"0.2.2", "2026-11-04T12:10:00Z",
          ⟨"", "", "", "", "http://localhost:8080/simulate-payment"⟩⟩ ∧
    Gateway.handlePaymentRequest scriptedPayReqDecode
        ⟨⟨[]⟩, ⟨[]⟩, "fake-pay offer_lightning_only"⟩
      = ⟨200, "application/json", .json ⟨"0.2.2", "2025-12-31T23:59:59Z", ⟨"", "", "", "",
          "http://localhost:8081/checkout?offer_id=offer_lightning_only&payment_context_token=demo-token-123"⟩⟩⟩ := by
  refine ⟨by decide, rfl, rfl, rfl⟩

/-- C4 (amended): the resolver rejects every method other than `fake-pay`, whatever the
referenced offer lists: for every offer and every request referencing it whose method is not
`fake-pay`, `NewPayReqResponse` returns the error `payment method not supported` and the
gateway's `handlePaymentRequest` answers 400 with `only fake payments are supported in demo`;
with the method `fake-pay` both return payment instructions, whether or not the offer lists
it. -/
theorem resolver_rejects_all_but_fake_pay (o : Offer) (req : PaymentRequestRequest) (now : Time)
    (decode : String → Except GoError PaymentRequestRequest) (r : ServerRequest)
    (_href : req.OfferID = o.ID) (hbody : decode r.Body = .ok req) :
    (req.PaymentMethod ≠ FakePay →
      NewPayReqResponse req now = .error (.new "payment method not supported") ∧
      Gateway.handlePaymentRequest decode r
        = httpError "only fake payments are supported in demo" StatusBadRequest) ∧
    (req.PaymentMethod = FakePay →
      (∃ resp, NewPayReqResponse req now = .ok resp) ∧
      ∃ resp, Gateway.handlePaymentRequest decode r
        = ⟨StatusOK, "application/json", .json resp⟩) := by
  constructor
  · intro hm
    simp [NewPayReqResponse, Gateway.handlePaymentRequest, hbody, hm]
  · intro hm
    simp [NewPayReqResponse, Gateway.handlePaymentRequest, hbody, hm]

/-- C4 (amended), at the specification's scenario: `lightning` against an offer that lists only
`fake-pay` is rejected by both resolvers. -/
theorem resolver_rejects_all_but_fake_pay_witness :
    Lightning ∉ fakeOnlyOffer.PaymentMethods ∧
    NewPayReqResponse ⟨"offer_fake_only", Lightning, "demo-token-123", "", ""⟩ sampleNow
      = .error (.new "payment method not supported") ∧
    Gateway.handlePaymentRequest scriptedPayReqDecode ⟨⟨[]⟩, ⟨[]⟩, "lightning offer_fake_only"⟩
      = httpError "only fake payments are supported in demo" StatusBadRequest :=
  have h := (resolver_rejects_all_but_fake_pay fakeOnlyOffer
    ⟨"offer_fake_only", Lightning, "demo-token-123", "", ""⟩ sampleNow scriptedPayReqDecode
    ⟨⟨[]⟩, ⟨[]⟩, "lightning offer_fake_only"⟩ rfl rfl).1 (by decide)
  ⟨by decide, h.1, h.2⟩

/-- The library resolver stamps its answer with the RFC3339 rendering of `now` plus ten minutes
and a fixed, non-empty checkout URL. -/
theorem newPayReqResponse_expiry (req : PaymentRequestRequest) (now : Time)
    (hm : req.PaymentMethod = FakePay) :
    NewPayReqResponse req now
      = .ok ⟨L402_VERSION, (now.Add (Minute * 10)).FormatRFC3339,
          ⟨"", "", "", "", "http://localhost:8080/simulate-payment"⟩⟩ := by
  simp [NewPayReqResponse, hm, PayReq.zero]

/-- The gateway's resolver has no clock: whatever the request, its answer to a `fake-pay`
request carries the expiry `2025-12-31T23:59:59Z` and a non-empty checkout URL on the gateway. -/
theorem handlePaymentRequest_expiry_fixed
    (decode : String → Except GoError PaymentRequestRequest) (r : ServerRequest)
    (req : PaymentRequestRequest) (hbody : decode r.Body = .ok req)
    (hm : req.PaymentMethod = FakePay) :
    Gateway.handlePaymentRequest decode r
      = ⟨StatusOK, "application/json", .json ⟨L402_VERSION, "2025-12-31T23:59:59Z",
          ⟨"", "", "", "", URL.String ⟨"http", "localhost:8081", "/checkout",
            (((Values.mk []).Set "payment_context_token" req.PaymentContextToken).Set
              "offer_id" req.OfferID).Encode⟩⟩⟩⟩ ∧
    URL.String ⟨"http", "localhost:8081", "/checkout",
      (((Values.mk []).Set "payment_context_token" req.PaymentContextToken).Set
        "offer_id" req.OfferID).Encode⟩ ≠ "" := by
  constructor
  · simp [Gateway.handlePaymentRequest, hbody, hm, PayReq.zero]
  · intro h
    have hlen := congrArg String.length h
    simp [URL.String, String.length_append] at hlen
    exact absurd hlen.1 (by decide)

/-- C5, the code at the failing input: for the request the fake wallet sends for `offer_0001`,
resolved at 2026-11-04T12:00:00Z, `NewPayReqResponse` answers with a non-empty checkout URL and
`expires_at` = `2026-11-04T12:10:00Z`, the RFC3339 rendering of now plus ten minutes, while the
gateway's `handlePaymentRequest` answers with `expires_at` = `2025-12-31T23:59:59Z`, which is
not that rendering. -/
theorem gateway_expiry_is_not_now_plus_ttl :
    scriptedPayReqDecode "fake-pay offer_0001"
      = .ok ⟨"offer_0001", FakePay, "demo-token-123", "", ""⟩ ∧
    (sampleNow.Add (Minute * 10)).FormatRFC3339 = "2026-11-04T12:10:00Z" ∧
    NewPayReqResponse ⟨"offer_0001", FakePay, "demo-token-123", "", ""⟩ sampleNow
      = .ok ⟨"0.2.2", (sampleNow.Add (Minute * 10)).FormatRFC3339,
          ⟨"", "", "", "", "http://localhost:8080/simulate-payment"⟩⟩ ∧
    Gateway.handlePaymentRequest scriptedPayReqDecode ⟨⟨[]⟩, ⟨[]⟩, "fake-pay offer_0001"⟩
      = ⟨200, "application/json", .json ⟨"0.2.2", "2025-12-31T23:59:59Z", ⟨"", "", "", "",
          "http://localhost:8081/checkout?offer_id=offer_0001&payment_context_token=demo-token-123"⟩⟩⟩ ∧
    "2025-12-31T23:59:59Z" ≠ (sampleNow.Add (Minute * 10)).FormatRFC3339 := by
  refine ⟨rfl, rfl, rfl, rfl, by decide⟩

/-! ## The issuer -/

/-- The library issuer's token is the string `uuid.New()` produced, and the world moves on to
the state the random source left. -/
theorem newL402Response_token {σ : Type} (uuidNew : σ → String × σ) (url : String)
    (os : List Offer) (w : σ) :
    NewL402Response uuidNew url os w
      = (⟨L402_VERSION, url, (uuidNew w).1, os, "https://example.com/terms"⟩, (uuidNew w).2) := by
  simp [NewL402Response]

/-- The gateway's issuer has no random source: every charge request with at least one offer is
answered with a challenge whose token is `demo-token-123`. -/
theorem handleCharge_token_fixed (decode : String → Except GoError Gateway.ChargeRequest)
    (r : ServerRequest) (req : Gateway.ChargeRequest) (hbody : decode r.Body = .ok req)
    (hoffers : req.Offers ≠ []) :
    Gateway.handleCharge decode r
      = ⟨StatusOK, "application/json", .json ⟨L402_VERSION,
          "http://localhost:8081/payment-request", "demo-token-123", req.Offers, ""⟩⟩ := by
  simp [Gateway.handleCharge, hbody, hoffers]

/-- C6, the code at the failing input: two charge requests, the first with the resource server's
three offers and the second with a single other offer, are answered by the gateway's
`handleCharge` with challenges that carry the same token `demo-token-123`. -/
theorem gateway_tokens_repeat :
    Gateway.handleCharge scriptedChargeDecode ⟨⟨[]⟩, ⟨[]⟩, "offers"⟩
      = ⟨200, "application/json", .json ⟨"0.2.2", "http://localhost:8081/payment-request",
          "demo-token-123", offers, ""⟩⟩ ∧
    Gateway.handleCharge scriptedChargeDecode ⟨⟨[]⟩, ⟨[]⟩, "one offer"⟩
      = ⟨200, "application/json", .json ⟨"0.2.2", "http://localhost:8081/payment-request",
          "demo-token-123", [fakeOnlyOffer], ""⟩⟩ := by
  refine ⟨rfl, rfl⟩

/-! ## The completion notice -/

/-- C7: `handlePaymentSuccess` answers 400 and leaves the server as it was if and only if the
context token or the offer id is empty; otherwise it sets the state to paid and answers 200.
The gateway's `handleCheckout` with either field empty answers 400 and sends nothing to the
resource server. -/
theorem completion_notice_validation {σ : Type} (s : Server) (r : ServerRequest)
    (httpDo : Request → σ → Except GoError Response × σ) (g : ServerRequest) (w : σ) :
    (((s.handlePaymentSuccess r).2.Code = StatusBadRequest ∧ (s.handlePaymentSuccess r).1 = s) ↔
      (r.Header.Get "X-Payment-Context" = "" ∨ r.Header.Get "X-Offer-ID" = "")) ∧
    ((r.Header.Get "X-Payment-Context" = "" ∨ r.Header.Get "X-Offer-ID" = "") →
      s.handlePaymentSuccess r
        = (s, httpError "missing payment context or offer ID" StatusBadRequest)) ∧
    (¬ (r.Header.Get "X-Payment-Context" = "" ∨ r.Header.Get "X-Offer-ID" = "") →
      s.handlePaymentSuccess r = (⟨true⟩, ⟨StatusOK, "", .text ""⟩)) ∧
    ((g.Query.Get "payment_context_token" = "" ∨ g.Query.Get "offer_id" = "") →
      Gateway.handleCheckout httpDo g w
        = ⟨httpError "missing payment context or offer ID" StatusBadRequest, w, []⟩) := by
  by_cases h : r.Header.Get "X-Payment-Context" = "" ∨ r.Header.Get "X-Offer-ID" = ""
  · refine ⟨?_, ?_, ?_, ?_⟩
    · simp [Server.handlePaymentSuccess, h, httpError]
    · intro _; simp [Server.handlePaymentSuccess, h]
    · intro hn; exact absurd h hn
    · intro hg; simp [Gateway.handleCheckout, hg]
  · refine ⟨?_, ?_, ?_, ?_⟩
    · simp [Server.handlePaymentSuccess, h, StatusOK, StatusBadRequest]
    · intro hn; exact absurd hn h
    · intro _; simp [Server.handlePaymentSuccess, h]
    · intro hg; simp [Gateway.handleCheckout, hg]

/-- C7, at concrete inputs: a notice without the offer id is refused and a paid server stays as
it is; a complete notice is accepted; a checkout without the context token notifies nobody. -/
theorem completion_notice_validation_witness :
    (Server.mk true).handlePaymentSuccess
        ⟨(Header.mk []).Set "X-Payment-Context" "demo-token-123", ⟨[]⟩, ""⟩
      = (⟨true⟩, httpError "missing payment context or offer ID" StatusBadRequest) ∧
    NewServer.handlePaymentSuccess
        ⟨((Header.mk []).Set "X-Payment-Context" "demo-token-123").Set "X-Offer-ID" "offer_0001",
          ⟨[]⟩, ""⟩
      = (⟨true⟩, ⟨StatusOK, "", .text ""⟩) ∧
    Gateway.handleCheckout Scripted.httpDo
        ⟨⟨[]⟩, (Values.mk []).Set "offer_id" "offer_0001", ""⟩ ⟨[.ok ⟨200, ""⟩], []⟩
      = ⟨httpError "missing payment context or offer ID" StatusBadRequest,
          ⟨[.ok ⟨200, ""⟩], []⟩, []⟩ :=
  ⟨(completion_notice_validation (Server.mk true)
      ⟨(Header.mk []).Set "X-Payment-Context" "demo-token-123", ⟨[]⟩, ""⟩
      Scripted.httpDo ⟨⟨[]⟩, ⟨[]⟩, ""⟩ ⟨[], []⟩).2.1 (by decide),
   (completion_notice_validation NewServer
      ⟨((Header.mk []).Set "X-Payment-Context" "demo-token-123").Set "X-Offer-ID" "offer_0001",
        ⟨[]⟩, ""⟩
      Scripted.httpDo ⟨⟨[]⟩, ⟨[]⟩, ""⟩ ⟨[], []⟩).2.2.1 (by decide),
   (completion_notice_validation NewServer ⟨⟨[]⟩, ⟨[]⟩, ""⟩ Scripted.httpDo
      ⟨⟨[]⟩, (Values.mk []).Set "offer_id" "offer_0001", ""⟩ ⟨[.ok ⟨200, ""⟩], []⟩).2.2.2
      (by decide)⟩

/-! ## The protected resource -/

/-- The two authentication tests of the resource handler pass together exactly when the header
is `Bearer ` followed by the configured token. -/
theorem bearer_check_iff (authHeader : String) :
    (HasPrefix authHeader "Bearer " = true ∧ TrimPrefix authHeader "Bearer " = authToken) ↔
      authHeader = "Bearer " ++ authToken := by
  constructor
  · rintro ⟨hp, ht⟩
    have hp2 := hp
    simp only [HasPrefix, List.isPrefixOf_iff_prefix] at hp2
    obtain ⟨t, ht2⟩ := hp2
    simp only [TrimPrefix, hp, if_true] at ht
    apply String.ext
    rw [String.data_append, ← ht, ← ht2]
    simp
  · intro h
    subst h
    have hp : HasPrefix ("Bearer " ++ authToken) "Bearer " = true := by
      simp [HasPrefix, String.data_append]
    refine ⟨hp, ?_⟩
    simp only [TrimPrefix, hp, if_true]
    apply String.ext
    simp [String.data_append]

/-- The resource handler never changes the server; a request whose Authorization header is not
`Bearer ` followed by the configured token is answered 401 without contacting the gateway; an
authenticated request to a paid server is answered 200 with the access-granted body. -/
theorem resource_settled_cases {σ : Type} (env : ServerEnv σ) (s : Server)
    (r : ServerRequest) (w : σ) :
    (s.handleGetPrivateResource env r w).server = s ∧
    (r.Header.Get "Authorization" ≠ "Bearer " ++ authToken →
      (s.handleGetPrivateResource env r w).reply.Code = StatusUnauthorized ∧
      (s.handleGetPrivateResource env r w).sent = [] ∧
      (s.handleGetPrivateResource env r w).world = w) ∧
    (r.Header.Get "Authorization" = "Bearer " ++ authToken → s.hasPaid = true →
      (s.handleGetPrivateResource env r w).reply
        = ⟨StatusOK, "application/json",
            .json [("message", "Access granted to dataset 123"), ("status", "success")]⟩ ∧
      (s.handleGetPrivateResource env r w).sent = []) := by
  have hb := bearer_check_iff (r.Header.Get "Authorization")
  refine ⟨?_, ?_, ?_⟩
  · unfold Server.handleGetPrivateResource
    simp only
    split
    · rfl
    · split
      · rfl
      · split
        · split
          · rfl
          · split <;> rfl
        · rfl
  · intro hne
    have hn : ¬ (HasPrefix (r.Header.Get "Authorization") "Bearer " = true ∧
        TrimPrefix (r.Header.Get "Authorization") "Bearer " = authToken) :=
      fun h => hne (hb.1 h)
    unfold Server.handleGetPrivateResource
    simp only
    by_cases hp : HasPrefix (r.Header.Get "Authorization") "Bearer " = true
    · have ht : TrimPrefix (r.Header.Get "Authorization") "Bearer " ≠ authToken :=
        fun h => hn ⟨hp, h⟩
      simp [hp, ht, httpError]
    · simp [hp, httpError]
  · intro hauth hpaid
    obtain ⟨hp, ht⟩ := hb.2 hauth
    simp [Server.handleGetPrivateResource, hp, ht, hpaid]

/-- C9, as stated, fails: an authenticated request to an unpaid server whose call to the gateway
fails at the transport is answered 502, not 402. -/
theorem resource_unpaid_gateway_down :
    authenticatedRequest.Header.Get "Authorization" = "Bearer " ++ authToken ∧
    NewServer.hasPaid = false ∧
    (NewServer.handleGetPrivateResource scriptedServerEnv authenticatedRequest ⟨[], []⟩).reply
      = httpError "gateway error" 502 ∧
    (NewServer.handleGetPrivateResource scriptedServerEnv authenticatedRequest
        ⟨[], []⟩).reply.Code ≠ StatusPaymentRequired := by
  refine ⟨rfl, rfl, rfl, by decide⟩

/-- C9 (amended): for every request, if the Authorization header is not exactly `Bearer `
followed by the configured token the status is 401, whatever the paid state, and the gateway is
not contacted; if authenticated and paid the status is 200 with the access-granted body; if
authenticated and unpaid the handler posts the offers to the gateway and, when that call
returns a response, answers 402 carrying the body of the gateway's response, while a failed
call is answered 502 (and a charge request that cannot be marshalled, 500, without contacting
the gateway).  The paid state is never changed. -/
theorem resource_status_contract {σ : Type} (env : ServerEnv σ) (s : Server)
    (r : ServerRequest) (w : σ) :
    (s.handleGetPrivateResource env r w).server = s ∧
    (r.Header.Get "Authorization" ≠ "Bearer " ++ authToken →
      (s.handleGetPrivateResource env r w).reply.Code = StatusUnauthorized ∧
      (s.handleGetPrivateResource env r w).sent = [] ∧
      (s.handleGetPrivateResource env r w).world = w) ∧
    (r.Header.Get "Authorization" = "Bearer " ++ authToken → s.hasPaid = true →
      (s.handleGetPrivateResource env r w).reply
        = ⟨StatusOK, "application/json",
            .json [("message", "Access granted to dataset 123"), ("status", "success")]⟩ ∧
      (s.handleGetPrivateResource env r w).sent = []) ∧
    (r.Header.Get "Authorization" = "Bearer " ++ authToken → s.hasPaid = false →
      (∀ body resp w1, env.marshalCharge offers = .ok body →
        env.httpDo (postRequest "http://localhost:8081/charge" "application/json" body) w
          = (.ok resp, w1) →
        (s.handleGetPrivateResource env r w).reply
          = ⟨StatusPaymentRequired, "application/json", .text resp.Body⟩ ∧
        (s.handleGetPrivateResource env r w).sent
          = [postRequest "http://localhost:8081/charge" "application/json" body]) ∧
      (∀ body err w1, env.marshalCharge offers = .ok body →
        env.httpDo (postRequest "http://localhost:8081/charge" "application/json" body) w
          = (.error err, w1) →
        (s.handleGetPrivateResource env r w).reply = httpError "gateway error" StatusBadGateway) ∧
      (∀ err, env.marshalCharge offers = .error err →
        (s.handleGetPrivateResource env r w).reply
          = httpError "internal server error" StatusInternalServerError ∧
        (s.handleGetPrivateResource env r w).sent = [])) := by
  have hb := bearer_check_iff (r.Header.Get "Authorization")
  have hs := resource_settled_cases env s r w
  refine ⟨hs.1, hs.2.1, hs.2.2, ?_⟩
  intro hauth hunpaid
  obtain ⟨hp, ht⟩ := hb.2 hauth
  refine ⟨?_, ?_, ?_⟩
  · intro body resp w1 hm hd
    simp [Server.handleGetPrivateResource, hp, ht, hunpaid, hm, hd]
  · intro body err w1 hm hd
    simp [Server.handleGetPrivateResource, hp, ht, hunpaid, hm, hd]
  · intro err hm
    simp [Server.handleGetPrivateResource, hp, ht, hunpaid, hm]

/-- C9 (amended), at concrete inputs: a wrong token is answered 401 by a paid server, and an
authenticated request to an unpaid server whose gateway answers is answered 402 with the
gateway's body. -/
theorem resource_status_contract_witness :
    ((Server.mk true).handleGetPrivateResource scriptedServerEnv
        ⟨(Header.mk []).Set "Authorization" "Bearer wrong", ⟨[]⟩, ""⟩
        ⟨[.ok ⟨200, "challenge"⟩], []⟩).reply.Code = StatusUnauthorized ∧
    (NewServer.handleGetPrivateResource scriptedServerEnv authenticatedRequest
        ⟨[.ok ⟨200, "challenge"⟩], []⟩).reply
      = ⟨StatusPaymentRequired, "application/json", .text "challenge"⟩ :=
  ⟨((resource_status_contract scriptedServerEnv (Server.mk true)
      ⟨(Header.mk []).Set "Authorization" "Bearer wrong", ⟨[]⟩, ""⟩
      ⟨[.ok ⟨200, "challenge"⟩], []⟩).2.1 (by decide)).1,
   (((resource_status_contract scriptedServerEnv NewServer authenticatedRequest
      ⟨[.ok ⟨200, "challenge"⟩], []⟩).2.2.2 rfl rfl).1 "offers" ⟨200, "challenge"⟩ ⟨[], []⟩
      rfl rfl).1⟩

/-! ## The paid state -/

/-- One step of the resource server: the record starts from the given server; an accepted
notice leaves it paid; a paid server stays paid, answers no 402 and grants every authenticated
check; and a server that comes out paid was paid already or has just accepted a notice. -/
theorem step_paid_facts {σ : Type} (env : ServerEnv σ) (s : Server) (w : σ) (c : ServerCall) :
    (s.step env w c).1.before = s ∧
    ((s.step env w c).1.acceptedNotice = true → (s.step env w c).1.after.hasPaid = true) ∧
    (s.hasPaid = true →
      (s.step env w c).1.after.hasPaid = true ∧
      (s.step env w c).1.reply.Code ≠ StatusPaymentRequired ∧
      ((s.step env w c).1.authenticatedCheck = true →
        (s.step env w c).1.reply.Code = StatusOK)) ∧
    ((s.step env w c).1.after.hasPaid = true →
      s.hasPaid = true ∨ (s.step env w c).1.acceptedNotice = true) := by
  cases c with
  | paymentSuccess r =>
    by_cases h : r.Header.Get "X-Payment-Context" = "" ∨ r.Header.Get "X-Offer-ID" = ""
    · simp [Server.step, Server.handlePaymentSuccess, h, Handled.acceptedNotice,
        Handled.authenticatedCheck, httpError, StatusOK, StatusBadRequest,
        StatusPaymentRequired]
    · simp [Server.step, Server.handlePaymentSuccess, h, Handled.acceptedNotice,
        Handled.authenticatedCheck, StatusOK, StatusPaymentRequired]
  | getPrivateResource r =>
    have hc := resource_settled_cases env s r w
    refine ⟨rfl, ?_, ?_, ?_⟩
    · simp [Server.step, Handled.acceptedNotice]
    · intro hpaid
      refine ⟨?_, ?_, ?_⟩
      · simp only [Server.step]
        rw [hc.1]
        exact hpaid
      · by_cases hauth : r.Header.Get "Authorization" = "Bearer " ++ authToken
        · have h := (hc.2.2 hauth hpaid).1
          simp only [Server.step]
          rw [h]
          decide
        · have h := (hc.2.1 hauth).1
          simp only [Server.step]
          rw [h]
          decide
      · intro hchk
        have hauth : r.Header.Get "Authorization" = "Bearer " ++ authToken := by
          simpa [Server.step, Handled.authenticatedCheck] using hchk
        have h := (hc.2.2 hauth hpaid).1
        simp only [Server.step]
        rw [h]
    · intro hafter
      left
      simp only [Server.step] at hafter
      rw [hc.1] at hafter
      exact hafter

/-- From a paid server on, every handled request starts and ends paid, is not answered 402, and
is granted when it is an authenticated check. -/
theorem run_from_paid {σ : Type} (env : ServerEnv σ) :
    ∀ (calls : List ServerCall) (s : Server) (w : σ), s.hasPaid = true →
      ∀ b ∈ Server.run env s w calls,
        b.before.hasPaid = true ∧ b.after.hasPaid = true ∧
        b.reply.Code ≠ StatusPaymentRequired ∧
        (b.authenticatedCheck = true → b.reply.Code = StatusOK) := by
  intro calls
  induction calls with
  | nil => intro s w _ b hb; simp [Server.run] at hb
  | cons c cs ih =>
    intro s w hpaid b hb
    have hf := step_paid_facts env s w c
    simp only [Server.run, List.mem_cons] at hb
    rcases hb with hb | hb
    · subst hb
      refine ⟨?_, (hf.2.2.1 hpaid).1, (hf.2.2.1 hpaid).2.1, (hf.2.2.1 hpaid).2.2⟩
      rw [hf.1]
      exact hpaid
    · exact ih _ _ (hf.2.2.1 hpaid).1 b hb

/-- From any server on, a request handled after an accepted notice starts and ends paid, is not
answered 402, and is granted when it is an authenticated check. -/
theorem run_after_accepted {σ : Type} (env : ServerEnv σ) :
    ∀ (calls : List ServerCall) (s : Server) (w : σ) (i j : Nat) (a b : Handled), i < j →
      (Server.run env s w calls)[i]? = some a → (Server.run env s w calls)[j]? = some b →
      a.acceptedNotice = true →
        b.before.hasPaid = true ∧ b.after.hasPaid = true ∧
        b.reply.Code ≠ StatusPaymentRequired ∧
        (b.authenticatedCheck = true → b.reply.Code = StatusOK) := by
  intro calls
  induction calls with
  | nil => intro s w i j a b _ ha; simp [Server.run] at ha
  | cons c cs ih =>
    intro s w i j a b hij ha hb hacc
    have hf := step_paid_facts env s w c
    cases j with
    | zero => exact absurd hij (Nat.not_lt_zero i)
    | succ j =>
      simp only [Server.run, List.getElem?_cons_succ] at hb
      cases i with
      | zero =>
        simp only [Server.run, List.getElem?_cons_zero, Option.some.injEq] at ha
        subst ha
        exact run_from_paid env cs _ _ (hf.2.1 hacc) b (List.getElem?_mem hb)
      | succ i =>
        simp only [Server.run, List.getElem?_cons_succ] at ha
        exact ih _ _ i j a b (Nat.lt_of_succ_lt_succ hij) ha hb hacc

/-- From any server on, a handled request that ends paid either started from a server that was
paid from the outset or comes at or after an accepted notice. -/
theorem run_paid_has_cause {σ : Type} (env : ServerEnv σ) :
    ∀ (calls : List ServerCall) (s : Server) (w : σ) (j : Nat) (b : Handled),
      (Server.run env s w calls)[j]? = some b → b.after.hasPaid = true →
        s.hasPaid = true ∨
        ∃ i a, i ≤ j ∧ (Server.run env s w calls)[i]? = some a ∧ a.acceptedNotice = true := by
  intro calls
  induction calls with
  | nil => intro s w j b hb; simp [Server.run] at hb
  | cons c cs ih =>
    intro s w j b hb hpaid
    have hf := step_paid_facts env s w c
    cases j with
    | zero =>
      simp only [Server.run, List.getElem?_cons_zero, Option.some.injEq] at hb
      subst hb
      rcases hf.2.2.2 hpaid with h | h
      · exact Or.inl h
      · exact Or.inr ⟨0, _, Nat.le_refl 0, by simp [Server.run], h⟩
    | succ j =>
      simp only [Server.run, List.getElem?_cons_succ] at hb
      rcases ih _ _ j b hb hpaid with h | ⟨i, a, hij, ha, hacc⟩
      · rcases hf.2.2.2 h with h0 | h0
        · exact Or.inl h0
        · exact Or.inr ⟨0, _, Nat.zero_le _, by simp [Server.run], h0⟩
      · exact Or.inr ⟨i + 1, a, Nat.succ_le_succ hij, by simpa [Server.run] using ha, hacc⟩

/-- From any server on, a handled request that was an accepted notice ends paid. -/
theorem run_accepted_paid {σ : Type} (env : ServerEnv σ) :
    ∀ (calls : List ServerCall) (s : Server) (w : σ), ∀ a ∈ Server.run env s w calls,
      a.acceptedNotice = true → a.after.hasPaid = true := by
  intro calls
  induction calls with
  | nil => intro s w a ha; simp [Server.run] at ha
  | cons c cs ih =>
    intro s w a ha hacc
    simp only [Server.run, List.mem_cons] at ha
    rcases ha with ha | ha
    · subst ha
      exact (step_paid_facts env s w c).2.1 hacc
    · exact ih _ _ a ha hacc

/-- Every request of the sequence is handled. -/
theorem run_length {σ : Type} (env : ServerEnv σ) :
    ∀ (calls : List ServerCall) (s : Server) (w : σ),
      (Server.run env s w calls).length = calls.length := by
  intro calls
  induction calls with
  | nil => intro s w; rfl
  | cons c cs ih => intro s w; simp [Server.run, ih]

/-- C8: the resource server, started by `NewServer`, handles any sequence of completion notices
and resource checks with arbitrary headers, whatever the gateway does.  Every request is
handled; a request handled after an accepted completion notice starts and ends in the paid
state, is not answered 402, and is answered 200 when it is an authenticated resource check; an
accepted notice ends in the paid state; and a request ends in the paid state only if a notice
was accepted at or before it. -/
theorem paid_is_monotonic {σ : Type} (env : ServerEnv σ) (w : σ) (calls : List ServerCall) :
    (Server.run env NewServer w calls).length = calls.length ∧
    (∀ (i j : Nat) (a b : Handled), i < j →
      (Server.run env NewServer w calls)[i]? = some a →
      (Server.run env NewServer w calls)[j]? = some b →
      a.acceptedNotice = true →
        b.before.hasPaid = true ∧ b.after.hasPaid = true ∧
        b.reply.Code ≠ StatusPaymentRequired ∧
        (b.authenticatedCheck = true → b.reply.Code = StatusOK)) ∧
    (∀ (i : Nat) (a : Handled), (Server.run env NewServer w calls)[i]? = some a →
      a.acceptedNotice = true → a.after.hasPaid = true) ∧
    (∀ (j : Nat) (b : Handled), (Server.run env NewServer w calls)[j]? = some b → b.after.hasPaid = true →
      ∃ (i : Nat) (a : Handled), i ≤ j ∧ (Server.run env NewServer w calls)[i]? = some a ∧
        a.acceptedNotice = true) := by
  refine ⟨run_length env calls _ _, run_after_accepted env calls NewServer w, ?_, ?_⟩
  · intro i a ha hacc
    exact run_accepted_paid env calls NewServer w a (List.getElem?_mem ha) hacc
  · intro j b hb hpaid
    rcases run_paid_has_cause env calls NewServer w j b hb hpaid with h | h
    · exact absurd h (by decide)
    · exact h

/-- C8, at a concrete run: an unauthenticated check, an authenticated check while unpaid (402),
an incomplete notice (400), a complete notice (200), then an authenticated check, which comes
after the accepted notice and is answered 200 from the paid state. -/
theorem paid_is_monotonic_witness :
    (Server.run scriptedServerEnv NewServer ⟨[.ok ⟨200, "challenge"⟩], []⟩
        [.getPrivateResource ⟨⟨[]⟩, ⟨[]⟩, ""⟩, .getPrivateResource authenticatedRequest,
          .paymentSuccess ⟨⟨[]⟩, ⟨[]⟩, ""⟩, .paymentSuccess completeNotice,
          .getPrivateResource authenticatedRequest]).map
        (fun h => (h.before.hasPaid, h.reply.Code, h.after.hasPaid))
      = [(false, 401, false), (false, 402, false), (false, 400, false), (false, 200, true),
          (true, 200, true)] ∧
    (Handled.mk (.paymentSuccess completeNotice) ⟨false⟩ ⟨true⟩
      ⟨200, "", .text ""⟩).acceptedNotice = true ∧
    (Handled.mk (.getPrivateResource authenticatedRequest) ⟨true⟩ ⟨true⟩
      ⟨200, "application/json",
        .json [("message", "Access granted to dataset 123"), ("status", "success")]⟩).reply.Code
      ≠ StatusPaymentRequired :=
  ⟨by decide, by decide,
    ((paid_is_monotonic scriptedServerEnv ⟨[.ok ⟨200, "challenge"⟩], []⟩
      [.getPrivateResource ⟨⟨[]⟩, ⟨[]⟩, ""⟩, .getPrivateResource authenticatedRequest,
        .paymentSuccess ⟨⟨[]⟩, ⟨[]⟩, ""⟩, .paymentSuccess completeNotice,
        .getPrivateResource authenticatedRequest]).2.1 3 4
      ⟨.paymentSuccess completeNotice, ⟨false⟩, ⟨true⟩, ⟨200, "", .text ""⟩⟩
      ⟨.getPrivateResource authenticatedRequest, ⟨true⟩, ⟨true⟩,
        ⟨200, "application/json",
          .json [("message", "Access granted to dataset 123"), ("status", "success")]⟩⟩
      (by decide) rfl rfl (by decide)).2.2.1⟩

/-! ## The fake wallet -/

/-- The loop finds nothing exactly when no offer of the list has the wallet's id. -/
theorem selectOffer_none_iff (fw : FakeWallet) (os : List Offer) :
    fw.selectOffer os = none ↔ ∀ o ∈ os, o.ID ≠ fw.offerID := by
  induction os with
  | nil => simp [FakeWallet.selectOffer]
  | cons o os ih =>
    by_cases h : o.ID = fw.offerID
    · simp [FakeWallet.selectOffer, h]
    · simp [FakeWallet.selectOffer, h, ih]

/-- What the loop finds is an offer of the list with the wallet's id. -/
theorem selectOffer_some (fw : FakeWallet) (os : List Offer) (o : Offer)
    (h : fw.selectOffer os = some o) : o ∈ os ∧ o.ID = fw.offerID := by
  induction os with
  | nil => simp [FakeWallet.selectOffer] at h
  | cons a os ih =>
    by_cases ha : a.ID = fw.offerID
    · simp only [FakeWallet.selectOffer, ha, if_true, Option.some.injEq] at h
      subst h
      exact ⟨List.mem_cons_self _ _, ha⟩
    · simp only [FakeWallet.selectOffer, ha, if_false] at h
      exact ⟨List.mem_cons_of_mem _ (ih h).1, (ih h).2⟩

/-- The loop stops at the first offer with the wallet's id. -/
theorem selectOffer_first (fw : FakeWallet) (pre post : List Offer) (o : Offer)
    (hpre : ∀ p ∈ pre, p.ID ≠ fw.offerID) (ho : o.ID = fw.offerID) :
    fw.selectOffer (pre ++ o :: post) = some o := by
  induction pre with
  | nil => simp [FakeWallet.selectOffer, ho]
  | cons a pre ih =>
    have ha : a.ID ≠ fw.offerID := hpre a (List.mem_cons_self _ _)
    simp only [List.cons_append, FakeWallet.selectOffer, ha, if_false]
    exact ih (fun p hp => hpre p (List.mem_cons_of_mem _ hp))

/-- The error for a refused payment request is not the error for a missing offer. -/
theorem status_error_ne_not_found (a b : String) :
    GoError.new ("payment request failed with status " ++ a)
      ≠ GoError.new ("offer " ++ b) := by
  intro h
  have hs : "payment request failed with status " ++ a = "offer " ++ b := by
    simpa using h
  have hd := congrArg String.data hs
  simp only [String.data_append] at hd
  have hh := congrArg List.head? hd
  simp at hh

/-- When the loop finds nothing, `Pay` returns the offer-not-found error at once. -/
theorem pay_without_offer {σ : Type} (env : WalletEnv σ) (fw : FakeWallet)
    (response : L402Response) (w : σ) (h : fw.selectOffer response.Offers = none) :
    fw.Pay env response w
      = ⟨some (.new ("offer " ++ fw.offerID ++ " not found")), w, none, [], []⟩ := by
  simp [FakeWallet.Pay, h]

/-- When the loop finds an offer, `Pay` reports it as selected, does not return the
offer-not-found error, and submits nothing or the one `fake-pay` request for that offer and the
challenge's token, posted to the challenge's payment-request URL. -/
theorem pay_with_offer {σ : Type} (env : WalletEnv σ) (fw : FakeWallet)
    (response : L402Response) (w : σ) (offer : Offer)
    (h : fw.selectOffer response.Offers = some offer) :
    (fw.Pay env response w).selected = some offer ∧
    (fw.Pay env response w).result ≠ some (.new ("offer " ++ fw.offerID ++ " not found")) ∧
    (((fw.Pay env response w).submitted = [] ∧ (fw.Pay env response w).sent = []) ∨
      ∃ body, env.marshalPayReq ⟨offer.ID, FakePay, response.PaymentContextToken, "", ""⟩
          = .ok body ∧
        (fw.Pay env response w).submitted
          = [⟨offer.ID, FakePay, response.PaymentContextToken, "", ""⟩] ∧
        (fw.Pay env response w).sent
          = [postRequest response.PaymentRequestURL "application/json" body]) := by
  unfold FakeWallet.Pay
  simp only [h]
  split
  · simp
  · rename_i body hm
    split
    · simp [hm]
    · split
      · refine ⟨rfl, ?_, Or.inr ⟨body, hm, rfl, rfl⟩⟩
        simp only [ne_eq, Option.some.injEq, String.append_assoc]
        exact status_error_ne_not_found _ _
      · split
        · simp [hm]
        · simp [hm]

/-- C11, as stated, fails: for a challenge whose only offer lists only `lightning`, the wallet
configured for that offer submits a request for it with the method `fake-pay`, which the offer
does not list. -/
theorem fake_wallet_submits_unlisted_method :
    ((NewFakeWallet "offer_lightning_only").Pay scriptedWalletEnv lightningOnlyChallenge
        ⟨[.ok ⟨200, "instructions"⟩], []⟩).submitted
      = [⟨"offer_lightning_only", "fake-pay", "demo-token-123", "", ""⟩] ∧
    ((NewFakeWallet "offer_lightning_only").Pay scriptedWalletEnv lightningOnlyChallenge
        ⟨[.ok ⟨200, "instructions"⟩], []⟩).result = none ∧
    lightningOnlyChallenge.Offers = [lightningOnlyOffer] ∧
    lightningOnlyOffer.ID = "offer_lightning_only" ∧
    "fake-pay" ∉ lightningOnlyOffer.PaymentMethods := by
  refine ⟨rfl, rfl, rfl, rfl, by decide⟩

/-- C11 (amended): every payment request that `FakeWallet.Pay` submits for a challenge carries
the challenge's token, the id of the first offer of the challenge that has the wallet's
configured id, and the method `fake-pay`, whatever that offer lists: the method is a member of
the offer's payment methods exactly when the offer lists `fake-pay`.  At most one request is
submitted, and it is posted to the challenge's payment-request URL. -/
theorem fake_wallet_request_invariant {σ : Type} (env : WalletEnv σ) (fw : FakeWallet)
    (response : L402Response) (w : σ) (p : PaymentRequestRequest)
    (hp : p ∈ (fw.Pay env response w).submitted) :
    p.PaymentContextToken = response.PaymentContextToken ∧
    p.PaymentMethod = FakePay ∧
    (∃ o ∈ response.Offers, fw.selectOffer response.Offers = some o ∧ o.ID = fw.offerID ∧
      p.OfferID = o.ID ∧ (p.PaymentMethod ∈ o.PaymentMethods ↔ FakePay ∈ o.PaymentMethods)) ∧
    (fw.Pay env response w).submitted = [p] ∧
    ∃ body, env.marshalPayReq p = .ok body ∧
      (fw.Pay env response w).sent
        = [postRequest response.PaymentRequestURL "application/json" body] := by
  cases hsel : fw.selectOffer response.Offers with
  | none =>
    rw [pay_without_offer env fw response w hsel] at hp
    simp at hp
  | some offer =>
    have hs := selectOffer_some fw response.Offers offer hsel
    rcases (pay_with_offer env fw response w offer hsel).2.2 with ⟨hnil, _⟩ | ⟨body, hm, hsub, hsent⟩
    · rw [hnil] at hp
      simp at hp
    · rw [hsub] at hp
      simp only [List.mem_singleton] at hp
      subst hp
      exact ⟨rfl, rfl, ⟨offer, hs.1, rfl, hs.2, rfl, Iff.rfl⟩, hsub, body, hm, hsent⟩

/-- C11 (amended), at a concrete input: the wallet of cmd/client, configured for `offer_0001`,
against the challenge the gateway issues for the resource server's offers. -/
theorem fake_wallet_request_invariant_witness :
    (⟨"offer_0001", "fake-pay", "demo-token-123", "", ""⟩ : PaymentRequestRequest)
      ∈ ((NewFakeWallet "offer_0001").Pay scriptedWalletEnv scriptedChallenge
          ⟨[.ok ⟨200, "instructions"⟩], []⟩).submitted ∧
    ((NewFakeWallet "offer_0001").Pay scriptedWalletEnv scriptedChallenge
        ⟨[.ok ⟨200, "instructions"⟩], []⟩).submitted
      = [⟨"offer_0001", "fake-pay", "demo-token-123", "", ""⟩] ∧
    (⟨"offer_0001", "fake-pay", "demo-token-123", "", ""⟩ : PaymentRequestRequest).PaymentMethod
      = FakePay :=
  have hp : (⟨"offer_0001", "fake-pay", "demo-token-123", "", ""⟩ : PaymentRequestRequest)
      ∈ ((NewFakeWallet "offer_0001").Pay scriptedWalletEnv scriptedChallenge
          ⟨[.ok ⟨200, "instructions"⟩], []⟩).submitted := by decide
  have h := fake_wallet_request_invariant scriptedWalletEnv (NewFakeWallet "offer_0001")
    scriptedChallenge ⟨[.ok ⟨200, "instructions"⟩], []⟩
    ⟨"offer_0001", "fake-pay", "demo-token-123", "", ""⟩ hp
  ⟨hp, h.2.2.2.1, h.2.1⟩

/-- C12: `FakeWallet.Pay` returns the offer-not-found error if and only if no offer of the
challenge has the wallet's configured id, in particular for an empty offer list; in that case
it selects nothing, submits no payment request and leaves the world as it was; and when the
wallet's id occurs in the list, the first offer that has it is the one selected. -/
theorem fake_wallet_offer_not_found {σ : Type} (env : WalletEnv σ) (fw : FakeWallet)
    (response : L402Response) (w : σ) :
    ((fw.Pay env response w).result = some (.new ("offer " ++ fw.offerID ++ " not found")) ↔
      ∀ o ∈ response.Offers, o.ID ≠ fw.offerID) ∧
    ((∀ o ∈ response.Offers, o.ID ≠ fw.offerID) →
      fw.Pay env response w
        = ⟨some (.new ("offer " ++ fw.offerID ++ " not found")), w, none, [], []⟩) ∧
    (response.Offers = [] →
      (fw.Pay env response w).result
        = some (.new ("offer " ++ fw.offerID ++ " not found"))) ∧
    (∀ (pre post : List Offer) (o : Offer), response.Offers = pre ++ o :: post →
      (∀ q ∈ pre, q.ID ≠ fw.offerID) → o.ID = fw.offerID →
      (fw.Pay env response w).selected = some o) := by
  have hnone := selectOffer_none_iff fw response.Offers
  refine ⟨?_, ?_, ?_, ?_⟩
  · constructor
    · intro hres
      cases hsel : fw.selectOffer response.Offers with
      | none => exact hnone.1 hsel
      | some offer => exact absurd hres (pay_with_offer env fw response w offer hsel).2.1
    · intro hall
      rw [pay_without_offer env fw response w (hnone.2 hall)]
  · intro hall
    exact pay_without_offer env fw response w (hnone.2 hall)
  · intro hempty
    have hsel : fw.selectOffer response.Offers = none := by
      rw [hempty]; rfl
    rw [pay_without_offer env fw response w hsel]
  · intro pre post o hsplit hpre ho
    have hsel : fw.selectOffer response.Offers = some o := by
      rw [hsplit]
      exact selectOffer_first fw pre post o hpre ho
    exact (pay_with_offer env fw response w o hsel).1

/-- C12, at concrete inputs: a challenge without offers, a challenge that lacks the wallet's
offer, and a challenge in which two offers share the wallet's id. -/
theorem fake_wallet_offer_not_found_witness :
    ((NewFakeWallet "offer_0001").Pay scriptedWalletEnv emptyChallenge
        ⟨[.ok ⟨200, "instructions"⟩], []⟩).result
      = some (.new "offer offer_0001 not found") ∧
    ((NewFakeWallet "offer_0004").Pay scriptedWalletEnv scriptedChallenge
        ⟨[.ok ⟨200, "instructions"⟩], []⟩).submitted = [] ∧
    ((NewFakeWallet "offer_0004").Pay scriptedWalletEnv scriptedChallenge
        ⟨[.ok ⟨200, "instructions"⟩], []⟩).sent = [] ∧
    ((NewFakeWallet "offer_twin").Pay scriptedWalletEnv twinChallenge
        ⟨[.ok ⟨200, "instructions"⟩], []⟩).selected = some firstTwin :=
  have hmiss := (fake_wallet_offer_not_found scriptedWalletEnv (NewFakeWallet "offer_0004")
    scriptedChallenge ⟨[.ok ⟨200, "instructions"⟩], []⟩).2.1 (by decide)
  ⟨(fake_wallet_offer_not_found scriptedWalletEnv (NewFakeWallet "offer_0001") emptyChallenge
      ⟨[.ok ⟨200, "instructions"⟩], []⟩).2.2.1 rfl,
   congrArg PayOutcome.submitted hmiss,
   congrArg PayOutcome.sent hmiss,
   (fake_wallet_offer_not_found scriptedWalletEnv (NewFakeWallet "offer_twin") twinChallenge
      ⟨[.ok ⟨200, "instructions"⟩], []⟩).2.2.2 [fakeOnlyOffer] [secondTwin] firstTwin rfl
      (by decide) rfl⟩

end L402
